import Mathlib

/-!
# Verification of the NJDG case-metrics pipeline

Shallow embedding of the data-transformation core of the NJDG judicial
dashboard (pages `AI_Predictions.py`, `Anomaly_Detection.py`,
`Judge_Dashboard.py`, `Lawyer_Dashboard.py`), together with proofs of the
behavioural properties stated in the specification.

Numeric columns are modelled over `ℚ`; pandas `Series.round` (round half to
even, "banker's rounding") is modelled exactly by `roundHalfEven`; missing
values (`NaN` / absent) are `Option`; tables are lists of rows.
-/

namespace NJDG

/-! ## Rounding: pandas `Series.round(0)` is round-half-to-even -/

/-- Round half to even (banker's rounding), the rounding mode of
`numpy.round` / `pandas.Series.round` at 0 decimals. -/
def roundHalfEven (q : ℚ) : ℤ :=
  if q - (⌊q⌋ : ℚ) < 1/2 then ⌊q⌋
  else if 1/2 < q - (⌊q⌋ : ℚ) then ⌊q⌋ + 1
  else if ⌊q⌋ % 2 = 0 then ⌊q⌋ else ⌊q⌋ + 1

theorem roundHalfEven_le (q : ℚ) : (roundHalfEven q : ℚ) ≤ q + 1/2 := by
  unfold roundHalfEven
  have hf : (⌊q⌋ : ℚ) ≤ q := Int.floor_le q
  have hf' : q < (⌊q⌋ : ℚ) + 1 := Int.lt_floor_add_one q
  split
  · linarith
  · split
    · push_cast; linarith [show (1:ℚ)/2 < q - (⌊q⌋ : ℚ) from by assumption]
    · split
      · linarith
      · push_cast
        have : ¬ (q - (⌊q⌋ : ℚ) < 1/2) := by assumption
        have : ¬ ((1:ℚ)/2 < q - (⌊q⌋ : ℚ)) := by assumption
        linarith

theorem le_roundHalfEven (q : ℚ) : q - 1/2 ≤ (roundHalfEven q : ℚ) := by
  unfold roundHalfEven
  have hf : (⌊q⌋ : ℚ) ≤ q := Int.floor_le q
  have hf' : q < (⌊q⌋ : ℚ) + 1 := Int.lt_floor_add_one q
  split
  · have : q - (⌊q⌋ : ℚ) < 1/2 := by assumption
    linarith
  · split
    · push_cast; linarith
    · split
      · have : ¬ (q - (⌊q⌋ : ℚ) < 1/2) := by assumption
        linarith
      · push_cast; linarith

theorem roundHalfEven_intCast (n : ℤ) : roundHalfEven (n : ℚ) = n := by
  unfold roundHalfEven
  simp [Int.floor_intCast]

/-! ## Disposal predictor (`AI_Predictions.py`, `generate_predictions`)

The page computes, per row,
`hearing_component = total_hearings * hearing_weight`,
`year_component = (filing_year - min_year) * year_weight`,
`baseline_component = baseline_delay`,
`predicted_disposal = (hearing + year + baseline).round(0)`,
`best_case_days = (predicted_disposal * 0.8).round(0)`,
`worst_case_days = (predicted_disposal * 1.25).round(0)`.
All inputs are integers (`total_hearings`, `filing_year` are integer columns;
the three weights come from integer sliders `10–50`, `5–30`, `50–200`). -/

def hearing_component (total_hearings hearing_weight : ℤ) : ℤ :=
  total_hearings * hearing_weight

def year_component (filing_year min_year year_weight : ℤ) : ℤ :=
  (filing_year - min_year) * year_weight

def predicted_disposal (total_hearings filing_year min_year
    hearing_weight year_weight baseline_delay : ℤ) : ℤ :=
  roundHalfEven (((hearing_component total_hearings hearing_weight
    + year_component filing_year min_year year_weight
    + baseline_delay : ℤ) : ℚ))

def best_case_days (pred : ℤ) : ℤ := roundHalfEven ((pred : ℚ) * (8/10))

def worst_case_days (pred : ℤ) : ℤ := roundHalfEven ((pred : ℚ) * (125/100))

theorem predicted_disposal_eq (th fy my hw yw bd : ℤ) :
    predicted_disposal th fy my hw yw bd =
      th * hw + (fy - my) * yw + bd := by
  unfold predicted_disposal hearing_component year_component
  exact roundHalfEven_intCast _

theorem best_case_le_self {p : ℤ} (hp : 0 ≤ p) : best_case_days p ≤ p := by
  have h1 : (best_case_days p : ℚ) ≤ (p : ℚ) * (8/10) + 1/2 :=
    roundHalfEven_le _
  have h2 : (p : ℚ) * (8/10) + 1/2 < (p : ℚ) + 1 := by
    have : (0 : ℚ) ≤ (p : ℚ) := by exact_mod_cast hp
    linarith
  have : (best_case_days p : ℚ) < (p : ℚ) + 1 := lt_of_le_of_lt h1 h2
  have : best_case_days p < p + 1 := by exact_mod_cast this
  omega

theorem self_le_worst_case {p : ℤ} (hp : 0 ≤ p) : p ≤ worst_case_days p := by
  have h1 : (p : ℚ) * (125/100) - 1/2 ≤ (worst_case_days p : ℚ) :=
    le_roundHalfEven _
  have h2 : (p : ℚ) - 1 < (p : ℚ) * (125/100) - 1/2 := by
    have : (0 : ℚ) ≤ (p : ℚ) := by exact_mod_cast hp
    linarith
  have : (p : ℚ) - 1 < (worst_case_days p : ℚ) := lt_of_lt_of_le h2 h1
  have : p - 1 < worst_case_days p := by exact_mod_cast this
  omega

/-- **C1.** For every case row with non-negative `total_hearings` and
`filing_year` no smaller than the dataset minimum (weights and baseline from
their non-negative slider ranges), the derived fields satisfy
`best_case_days ≤ predicted_disposal ≤ worst_case_days`, where
`predicted_disposal = round(total_hearings*hearing_weight
+ (filing_year - min_year)*year_weight + baseline_delay)`,
`best_case_days = round(predicted_disposal*0.8)` and
`worst_case_days = round(predicted_disposal*1.25)`. -/
theorem C1_best_le_pred_le_worst
    (th fy my hw yw bd : ℤ)
    (hth : 0 ≤ th) (hfy : my ≤ fy)
    (hhw : 0 ≤ hw) (hyw : 0 ≤ yw) (hbd : 0 ≤ bd) :
    best_case_days (predicted_disposal th fy my hw yw bd)
      ≤ predicted_disposal th fy my hw yw bd ∧
    predicted_disposal th fy my hw yw bd
      ≤ worst_case_days (predicted_disposal th fy my hw yw bd) := by
  have hpred : 0 ≤ predicted_disposal th fy my hw yw bd := by
    rw [predicted_disposal_eq]
    have h1 : 0 ≤ th * hw := mul_nonneg hth hhw
    have h2 : 0 ≤ (fy - my) * yw := mul_nonneg (by omega) hyw
    omega
  exact ⟨best_case_le_self hpred, self_le_worst_case hpred⟩

/-- Witness for C1 at a concrete row: 3 hearings, filed 2020, dataset minimum
2015, default slider weights 20/10/100. -/
theorem C1_witness :
    (0 : ℤ) ≤ 3 ∧ (2015 : ℤ) ≤ 2020 ∧ (0 : ℤ) ≤ 20 ∧ (0 : ℤ) ≤ 10 ∧
    (0 : ℤ) ≤ 100 ∧
    (best_case_days (predicted_disposal 3 2020 2015 20 10 100)
      ≤ predicted_disposal 3 2020 2015 20 10 100 ∧
    predicted_disposal 3 2020 2015 20 10 100
      ≤ worst_case_days (predicted_disposal 3 2020 2015 20 10 100)) :=
  ⟨by decide, by decide, by decide, by decide, by decide,
   C1_best_le_pred_le_worst 3 2020 2015 20 10 100
     (by decide) (by decide) (by decide) (by decide) (by decide)⟩

/-- **C2.** For fixed weights in their positive slider ranges and fixed
`min_year` and `baseline_delay`, `predicted_disposal` is monotonically
non-decreasing in `total_hearings` (other inputs fixed) and monotonically
non-decreasing in `filing_year` (other inputs fixed). -/
theorem C2_predicted_disposal_monotone
    (my hw yw bd : ℤ)
    (hhw1 : 10 ≤ hw) (hhw2 : hw ≤ 50)
    (hyw1 : 5 ≤ yw) (hyw2 : yw ≤ 30) :
    (∀ fy th th', th ≤ th' →
      predicted_disposal th fy my hw yw bd
        ≤ predicted_disposal th' fy my hw yw bd) ∧
    (∀ th fy fy', fy ≤ fy' →
      predicted_disposal th fy my hw yw bd
        ≤ predicted_disposal th fy' my hw yw bd) := by
  constructor
  · intro fy th th' h
    rw [predicted_disposal_eq, predicted_disposal_eq]
    have : th * hw ≤ th' * hw :=
      mul_le_mul_of_nonneg_right h (by omega)
    omega
  · intro th fy fy' h
    rw [predicted_disposal_eq, predicted_disposal_eq]
    have : (fy - my) * yw ≤ (fy' - my) * yw :=
      mul_le_mul_of_nonneg_right (by omega) (by omega)
    omega

/-- Witness for C2 at concrete inputs (default weights 20/10, min year 2015,
baseline 100; hearings 2 ≤ 5, filing years 2016 ≤ 2019). -/
theorem C2_witness :
    (10 : ℤ) ≤ 20 ∧ (20 : ℤ) ≤ 50 ∧ (5 : ℤ) ≤ 10 ∧ (10 : ℤ) ≤ 30 ∧
    ((2 : ℤ) ≤ 5 ∧
      predicted_disposal 2 2016 2015 20 10 100
        ≤ predicted_disposal 5 2016 2015 20 10 100) ∧
    ((2016 : ℤ) ≤ 2019 ∧
      predicted_disposal 7 2016 2015 20 10 100
        ≤ predicted_disposal 7 2019 2015 20 10 100) :=
  ⟨by decide, by decide, by decide, by decide,
   ⟨by decide,
    (C2_predicted_disposal_monotone 2015 20 10 100
      (by decide) (by decide) (by decide) (by decide)).1 2016 2 5 (by decide)⟩,
   ⟨by decide,
    (C2_predicted_disposal_monotone 2015 20 10 100
      (by decide) (by decide) (by decide) (by decide)).2 7 2016 2019
      (by decide)⟩⟩

/-! ## Risk classification (`AI_Predictions.py`, `delay_risk`)

The page computes `low_th = predicted_disposal.quantile(0.33)` and
`high_th = predicted_disposal.quantile(0.66)` (pandas default linear
interpolation) over the current dataset, then buckets each row with
`delay_risk`. -/

/-- Insert into an ascending-sorted list (stable ascending sort step). -/
def insertAsc (x : ℚ) : List ℚ → List ℚ
  | [] => [x]
  | y :: ys => if x ≤ y then x :: y :: ys else y :: insertAsc x ys

/-- Ascending sort, modelling the internal sort of `Series.quantile`. -/
def sortAsc (xs : List ℚ) : List ℚ := xs.foldr insertAsc []

/-- Pandas `Series.quantile(p)` with the default `interpolation="linear"`:
with sorted values `x_0 … x_(n-1)` and `h = p*(n-1)`, the result is
`x_⌊h⌋ + (h - ⌊h⌋) * (x_(⌊h⌋+1) - x_⌊h⌋)`. (Empty series give `NaN` in
pandas; the model returns `0` there, a value no claim depends on.) -/
def quantileLinear (xs : List ℚ) (p : ℚ) : ℚ :=
  if xs = [] then 0
  else
    (sortAsc xs).getD (⌊p * (xs.length - 1 : ℚ)⌋.toNat) 0
      + (p * (xs.length - 1 : ℚ) - (⌊p * (xs.length - 1 : ℚ)⌋ : ℚ))
        * ((sortAsc xs).getD (⌊p * (xs.length - 1 : ℚ)⌋.toNat + 1)
              ((sortAsc xs).getD (⌊p * (xs.length - 1 : ℚ)⌋.toNat) 0)
          - (sortAsc xs).getD (⌊p * (xs.length - 1 : ℚ)⌋.toNat) 0)

/-- The `delay_risk` classifier of `AI_Predictions.py`, with the two
data-derived thresholds passed explicitly. -/
def delay_risk (low_th high_th days : ℚ) : String :=
  if days ≤ low_th then "Low"
  else if days ≤ high_th then "Medium"
  else "High"

/-- The spec's concrete predicted-disposal series `[100,200,300,400,500,600]`. -/
def predsExample : List ℚ := [100, 200, 300, 400, 500, 600]

theorem quantileLinear_eval (xs s : List ℚ) (p h : ℚ) (k : ℕ) (lo hi : ℚ)
    (hxs : xs ≠ []) (hsort : sortAsc xs = s)
    (hh : p * ((xs.length : ℚ) - 1) = h) (hk : ⌊h⌋ = (k : ℤ))
    (hlo : s.getD k 0 = lo) (hhi : s.getD (k + 1) lo = hi) :
    quantileLinear xs p = lo + (h - (k : ℚ)) * (hi - lo) := by
  unfold quantileLinear
  rw [if_neg hxs, hsort, hh, hk, Int.toNat_natCast, hlo, hhi]
  push_cast
  ring

theorem sortAsc_predsExample : sortAsc predsExample = predsExample := by
  norm_num [sortAsc, insertAsc, predsExample]

theorem quantile33_predsExample :
    quantileLinear predsExample (33/100) = 265 := by
  rw [quantileLinear_eval predsExample predsExample (33/100) (33/20) 1 200 300
    (by simp [predsExample]) sortAsc_predsExample
    (by norm_num [predsExample])
    (by norm_num [Int.floor_eq_iff]) rfl rfl]
  norm_num

theorem quantile66_predsExample :
    quantileLinear predsExample (66/100) = 430 := by
  rw [quantileLinear_eval predsExample predsExample (66/100) (33/10) 3 400 500
    (by simp [predsExample]) sortAsc_predsExample
    (by norm_num [predsExample])
    (by norm_num [Int.floor_eq_iff]) rfl rfl]
  norm_num

/-- **C5.** For every row, `delay_risk` is `"Low"` when
`predicted_disposal ≤` the 33rd percentile of the dataset, `"Medium"` when it
is `≤` the 66th percentile, and `"High"` otherwise, boundary equality always
falling into the lower bucket; on the series `[100,200,300,400,500,600]` the
thresholds are `265` and `430` and the assignment is
`[Low, Low, Medium, Medium, High, High]`. -/
theorem C5_delay_risk_buckets :
    (∀ lo hi d : ℚ,
      (d ≤ lo → delay_risk lo hi d = "Low") ∧
      (¬ d ≤ lo → d ≤ hi → delay_risk lo hi d = "Medium") ∧
      (¬ d ≤ lo → ¬ d ≤ hi → delay_risk lo hi d = "High")) ∧
    quantileLinear predsExample (33/100) = 265 ∧
    quantileLinear predsExample (66/100) = 430 ∧
    predsExample.map
        (delay_risk (quantileLinear predsExample (33/100))
          (quantileLinear predsExample (66/100)))
      = ["Low", "Low", "Medium", "Medium", "High", "High"] := by
  refine ⟨?_, quantile33_predsExample, quantile66_predsExample, ?_⟩
  · intro lo hi d
    refine ⟨fun h1 => ?_, fun h1 h2 => ?_, fun h1 h2 => ?_⟩
    · simp [delay_risk, h1]
    · simp [delay_risk, h1, h2]
    · simp [delay_risk, h1, h2]
  · rw [quantile33_predsExample, quantile66_predsExample]
    norm_num [predsExample, delay_risk]

/-- Witness for C5: the bucket characterization applied at the concrete
thresholds 265/430 and days 100, 300, 500. -/
theorem C5_witness :
    delay_risk 265 430 100 = "Low" ∧
    delay_risk 265 430 300 = "Medium" ∧
    delay_risk 265 430 500 = "High" :=
  ⟨(C5_delay_risk_buckets.1 265 430 100).1 (by decide),
   (C5_delay_risk_buckets.1 265 430 300).2.1 (by decide) (by decide),
   (C5_delay_risk_buckets.1 265 430 500).2.2 (by decide) (by decide)⟩

/-! ## Anomaly explanation (`Anomaly_Detection.py`, `explain_anomalies`)

Per row the loop starts with `s = "Low"` and an empty reason list, appends
"Unusually long case duration" and sets `s = "High"` when `case_duration`
exceeds its 90th percentile, appends "Excessive number of hearings" and sets
`s = "Critical"` when `total_hearings` exceeds its 95th percentile, and
appends "Abnormally high disposal days" (without touching `s`) when
`disposal_days` exceeds its 95th percentile; an empty reason list becomes
"Statistical outlier pattern". Quantile thresholds are `Option ℚ`: `none`
models a `NaN` threshold (absent/empty column), and any comparison with
`NaN` is false. -/

/-- `x > t` where `t` may be `NaN` (`none`): false against `NaN`, as in
numpy/pandas. -/
def gtOpt (x : ℚ) (t : Option ℚ) : Bool :=
  match t with
  | none => false
  | some th => decide (th < x)

structure ExplainOut where
  anomaly_reason : String
  severity : String
deriving DecidableEq

/-- One iteration of the `explain_anomalies` row loop, thresholds passed
explicitly. -/
def explain_row (q90_duration q95_hearings q95_disposal : Option ℚ)
    (case_duration total_hearings disposal_days : ℚ) : ExplainOut :=
  let r0 : List String := []
  let s0 : String := "Low"
  let r1 := if gtOpt case_duration q90_duration
            then r0 ++ ["Unusually long case duration"] else r0
  let s1 := if gtOpt case_duration q90_duration then "High" else s0
  let r2 := if gtOpt total_hearings q95_hearings
            then r1 ++ ["Excessive number of hearings"] else r1
  let s2 := if gtOpt total_hearings q95_hearings then "Critical" else s1
  let r3 := if gtOpt disposal_days q95_disposal
            then r2 ++ ["Abnormally high disposal days"] else r2
  { anomaly_reason :=
      if r3.isEmpty then "Statistical outlier pattern"
      else String.intercalate ", " r3
    severity := s2 }

/-- **C6.** Severity is the last qualifying high-severity rule evaluated: a
row whose `case_duration` exceeds the 90th percentile and whose
`total_hearings` exceeds the 95th percentile reports severity `"Critical"`
(not `"High"`); the `disposal_days` rule never changes severity; a row
triggering no rule gets reason `"Statistical outlier pattern"` with severity
`"Low"`. -/
theorem C6_severity_last_rule_wins :
    (∀ qd qh qdd d h dd, gtOpt d qd = true → gtOpt h qh = true →
      (explain_row qd qh qdd d h dd).severity = "Critical") ∧
    (∀ qd qh qdd qdd' d h dd dd',
      (explain_row qd qh qdd d h dd).severity
        = (explain_row qd qh qdd' d h dd').severity) ∧
    (∀ qd qh qdd d h dd,
      gtOpt d qd = false → gtOpt h qh = false → gtOpt dd qdd = false →
      explain_row qd qh qdd d h dd
        = ⟨"Statistical outlier pattern", "Low"⟩) := by
  refine ⟨fun qd qh qdd d h dd h1 h2 => ?_,
          fun qd qh qdd qdd' d h dd dd' => ?_,
          fun qd qh qdd d h dd h1 h2 h3 => ?_⟩
  · simp [explain_row, h1, h2]
  · simp only [explain_row]
  · simp [explain_row, h1, h2, h3]

/-- Witness for C6: concrete thresholds 100/10/200 with a row at
duration 150, hearings 12, disposal 50 (both high rules fire ⇒ Critical),
and a row at 50/5/50 (no rule fires ⇒ Low / statistical outlier). -/
theorem C6_witness :
    (explain_row (some 100) (some 10) (some 200) 150 12 50).severity
      = "Critical" ∧
    explain_row (some 100) (some 10) (some 200) 50 5 50
      = ⟨"Statistical outlier pattern", "Low"⟩ :=
  ⟨C6_severity_last_rule_wins.1 (some 100) (some 10) (some 200) 150 12 50
      (by decide) (by decide),
   C6_severity_last_rule_wins.2.2 (some 100) (some 10) (some 200) 50 5 50
      (by decide) (by decide) (by decide)⟩

/-! ## Health / priority scores (`Judge_Dashboard.py` 86–98,
`Lawyer_Dashboard.py` 62–69)

The code computes
`age_days = (today - date_filed).dt.days.fillna(0)` (note: no clamping at 0),
`case_health_score = (0.5*np.clip(100 - age_days/5, 0, 100)
  + 0.3*np.where(status contains "disposed" (case-insensitive, NaN → False),
  100, 60)).round(1)`,
`priority_score = (0.6*(100 - case_health_score)
  + 0.4*np.clip(age_days/10, 0, 100)).round(1)`.
Dates are modelled at day granularity as integers; a missing / unparseable
`date_filed` is `none`. -/

/-- `np.clip(x, lo, hi) = minimum(hi, maximum(lo, x))`. -/
def npClip (x lo hi : ℚ) : ℚ := min hi (max lo x)

/-- pandas `.round(1)`: banker's rounding at one decimal. -/
def round1 (x : ℚ) : ℚ := (roundHalfEven (x * 10) : ℚ) / 10

/-- `status.str.lower().str.contains("disposed", na=False)`: case-insensitive
substring test, false for a missing status. -/
def containsDisposed : Option String → Bool
  | none => false
  | some s => decide ("disposed".toList <:+: s.toLower.toList)

/-- `(today - date_filed).dt.days.fillna(0)` — may be negative for a filing
date in the future. -/
def age_days (today : ℤ) (date_filed : Option ℤ) : ℤ :=
  match date_filed with
  | none => 0
  | some d => today - d

def case_health_score (today : ℤ) (date_filed : Option ℤ)
    (current_status : Option String) : ℚ :=
  round1 (1/2 * npClip (100 - (age_days today date_filed : ℚ) / 5) 0 100
    + 3/10 * (if containsDisposed current_status then 100 else 60))

def priority_score (today : ℤ) (date_filed : Option ℤ)
    (current_status : Option String) : ℚ :=
  round1 (6/10 * (100 - case_health_score today date_filed current_status)
    + 4/10 * npClip ((age_days today date_filed : ℚ) / 10) 0 100)

/-- Modelled from the spec's formula for §4.5: `age_days = max(0, today −
date_filed)` in days, `0` if `date_filed` missing. The code variant
(`age_days`) omits the `max(0, ·)`. -/
def spec_age_days (today : ℤ) (date_filed : Option ℤ) : ℤ :=
  match date_filed with
  | none => 0
  | some d => max 0 (today - d)

/-- The claim's `case_health_score` formula, using `spec_age_days`. -/
def spec_case_health_score (today : ℤ) (date_filed : Option ℤ)
    (current_status : Option String) : ℚ :=
  round1 (1/2 * npClip (100 - (spec_age_days today date_filed : ℚ) / 5) 0 100
    + 3/10 * (if containsDisposed current_status then 100 else 60))

/-- The claim's `priority_score` formula, using `spec_age_days`. -/
def spec_priority_score (today : ℤ) (date_filed : Option ℤ)
    (current_status : Option String) : ℚ :=
  round1 (6/10 * (100 - spec_case_health_score today date_filed current_status)
    + 4/10 * npClip ((spec_age_days today date_filed : ℚ) / 10) 0 100)

theorem clip_health_age_eq (a : ℤ) :
    npClip (100 - (a : ℚ) / 5) 0 100
      = npClip (100 - ((max 0 a : ℤ) : ℚ) / 5) 0 100 := by
  rcases le_or_lt 0 a with h | h
  · rw [max_eq_right h]
  · rw [max_eq_left h.le]
    have ha : (a : ℚ) < 0 := by exact_mod_cast h
    unfold npClip
    rw [max_eq_right (by linarith), max_eq_right (by norm_num),
      min_eq_left (by linarith), min_eq_left (by norm_num)]

theorem clip_priority_age_eq (a : ℤ) :
    npClip ((a : ℚ) / 10) 0 100
      = npClip (((max 0 a : ℤ) : ℚ) / 10) 0 100 := by
  rcases le_or_lt 0 a with h | h
  · rw [max_eq_right h]
  · rw [max_eq_left h.le]
    have ha : (a : ℚ) < 0 := by exact_mod_cast h
    unfold npClip
    rw [max_eq_left (by linarith), max_eq_left (by norm_num)]

theorem age_days_cases (today : ℤ) (df : Option ℤ) :
    spec_age_days today df = max 0 (age_days today df) := by
  cases df <;> simp [spec_age_days, age_days]

/-- **C7.** For every row — with `age_days` as in the claim (`max(0, today −
date_filed)`, `0` when missing) — `case_health_score` equals
`round1(0.5*clip(100 − age_days/5, 0, 100) + 0.3*(100 if the status contains
"disposed" case-insensitively else 60))` and `priority_score` equals
`round1(0.6*(100 − case_health_score) + 0.4*clip(age_days/10, 0, 100))`:
the code's scores (which skip the `max(0,·)` clamp on `age_days`) agree with
the claim's formulas on all inputs, because both clips saturate identically
for negative ages. -/
theorem C7_health_priority_formulas
    (today : ℤ) (date_filed : Option ℤ) (current_status : Option String) :
    case_health_score today date_filed current_status
      = spec_case_health_score today date_filed current_status ∧
    priority_score today date_filed current_status
      = spec_priority_score today date_filed current_status := by
  have hh : case_health_score today date_filed current_status
      = spec_case_health_score today date_filed current_status := by
    unfold case_health_score spec_case_health_score
    rw [age_days_cases, clip_health_age_eq]
  refine ⟨hh, ?_⟩
  unfold priority_score spec_priority_score
  rw [hh, age_days_cases, clip_priority_age_eq]

/-! ## C10: range of `case_health_score` -/

theorem npClip_bounds (x lo hi : ℚ) (h : lo ≤ hi) :
    lo ≤ npClip x lo hi ∧ npClip x lo hi ≤ hi :=
  ⟨le_min h (le_max_left lo x), min_le_left hi _⟩

theorem round1_le_intCast {v : ℚ} {n : ℤ} (h : v ≤ (n : ℚ)) :
    round1 v ≤ (n : ℚ) := by
  unfold round1
  have h1 : (roundHalfEven (v * 10) : ℚ) ≤ v * 10 + 1/2 := roundHalfEven_le _
  have h2 : (roundHalfEven (v * 10) : ℚ) < (10 * n : ℤ) + 1 := by
    push_cast; linarith
  have h3 : roundHalfEven (v * 10) ≤ 10 * n := by
    have := (Int.lt_add_one_iff (a := roundHalfEven (v * 10))
      (b := 10 * n)).mp (by exact_mod_cast h2)
    exact this
  have h4 : (roundHalfEven (v * 10) : ℚ) ≤ ((10 * n : ℤ) : ℚ) := by
    exact_mod_cast h3
  push_cast at h4
  linarith

theorem intCast_le_round1 {v : ℚ} {m : ℤ} (h : (m : ℚ) ≤ v) :
    (m : ℚ) ≤ round1 v := by
  unfold round1
  have h1 : v * 10 - 1/2 ≤ (roundHalfEven (v * 10) : ℚ) := le_roundHalfEven _
  have h2 : ((10 * m : ℤ) : ℚ) - 1 < (roundHalfEven (v * 10) : ℚ) := by
    push_cast; linarith
  have h3 : 10 * m ≤ roundHalfEven (v * 10) := by
    have h2' : 10 * m - 1 < roundHalfEven (v * 10) := by exact_mod_cast h2
    omega
  have h4 : ((10 * m : ℤ) : ℚ) ≤ (roundHalfEven (v * 10) : ℚ) := by
    exact_mod_cast h3
  push_cast at h4
  linarith

/-- **C10.** For every row, `case_health_score` lies in `[18, 80]`: the age
component contributes at most `0.5*100 = 50` and the status component is
`0.3*60 = 18` or `0.3*100 = 30`, so the score never reaches 100 and never
falls below 18. -/
theorem C10_case_health_score_range
    (today : ℤ) (date_filed : Option ℤ) (current_status : Option String) :
    (18 : ℚ) ≤ case_health_score today date_filed current_status ∧
    case_health_score today date_filed current_status ≤ 80 := by
  unfold case_health_score
  obtain ⟨hc0, hc1⟩ :=
    npClip_bounds (100 - (age_days today date_filed : ℚ) / 5) 0 100
      (by norm_num)
  set c : ℚ := npClip (100 - (age_days today date_filed : ℚ) / 5) 0 100
  rcases Bool.eq_false_or_eq_true (containsDisposed current_status)
    with hb | hb <;> rw [hb]
  · constructor
    · exact intCast_le_round1 (m := 18) (by norm_num; linarith)
    · exact round1_le_intCast (n := 80) (by norm_num; linarith)
  · constructor
    · exact intCast_le_round1 (m := 18) (by norm_num; linarith)
    · exact round1_le_intCast (n := 80) (by norm_num; linarith)

/-! ## Case cleaner (`Anomaly_Detection.py`, `clean_cases` lines 63–81)

After date parsing, `case_duration = (decision_date - date_filed).dt.days`
when both date columns exist, else a column of `NaN`; then every numeric
column (which includes `case_duration`) gets `fillna(median())`. A column is
`List (Option ℚ)` with `none` for `NaN`; dates are day-granular integers,
`none` for unparseable. -/

/-- pandas `Series.median()`: skip nulls, sort, middle element (odd length)
or mean of the two middle elements (even length); `none` (`NaN`) for an
all-null series. -/
def medianQ (xs : List ℚ) : Option ℚ :=
  if _h : xs = [] then none
  else if (sortAsc xs).length % 2 = 1 then
    some ((sortAsc xs).getD ((sortAsc xs).length / 2) 0)
  else
    some (((sortAsc xs).getD ((sortAsc xs).length / 2 - 1) 0
      + (sortAsc xs).getD ((sortAsc xs).length / 2) 0) / 2)

/-- `col.fillna(col.median())`: each null cell becomes the column median over
the non-null cells; when the column is all-null the median is `NaN` and
`fillna(NaN)` leaves the column unchanged. -/
def fillnaMedian (col : List (Option ℚ)) : List (Option ℚ) :=
  match medianQ (col.filterMap id) with
  | none => col
  | some m => col.map (fun v => some (v.getD m))

/-- The numeric content of a cases table entering `clean_cases`: the two date
columns (absent, or day-granular values with `none` for unparseable cells),
the row count, and the other numeric columns. -/
structure CasesTable where
  date_filed : Option (List (Option ℤ))
  decision_date : Option (List (Option ℤ))
  nrows : ℕ
  numeric : List (String × List (Option ℚ))

/-- `(decision_date - date_filed).dt.days` when both date columns are
present, else the all-`NaN` column created by the `else` branch. -/
def case_duration (t : CasesTable) : List (Option ℚ) :=
  match t.date_filed, t.decision_date with
  | some dfs, some dds =>
      List.zipWith (fun df dd =>
        match df, dd with
        | some x, some y => some (((y - x : ℤ) : ℚ))
        | _, _ => none) dfs dds
  | _, _ => List.replicate t.nrows none

/-- The numeric columns of the cleaned table: the original numeric columns
plus the derived `case_duration`, each median-imputed. -/
def clean_cases_numeric (t : CasesTable) : List (String × List (Option ℚ)) :=
  (t.numeric ++ [("case_duration", case_duration t)]).map
    (fun p => (p.1, fillnaMedian p.2))

theorem medianQ_nonempty {xs : List ℚ} (h : xs ≠ []) :
    ∃ m, medianQ xs = some m := by
  unfold medianQ
  rw [dif_neg h]
  split <;> exact ⟨_, rfl⟩

/-- **C4 counterexample.** A cases table without date columns (one row, no
other numeric column): `clean_cases` itself creates an all-`NaN`
`case_duration`, whose median is `NaN`, so the null survives cleaning — a
numeric null does enter the scorer, contradicting the claim. -/
theorem C4_counterexample :
    clean_cases_numeric ⟨none, none, 1, []⟩ = [("case_duration", [none])] :=
  rfl

/-- **C4 (amended).** Every missing value in a numeric column that has at
least one non-missing value is replaced by that column's median (computed
after date parsing and `case_duration` derivation), leaving no null in such a
column — in particular a column with one missing value and remaining values
`{1,2,3,4}` is filled with `2.5`; but a numeric column whose values are all
missing (e.g. `case_duration` when a date column is absent) keeps its nulls. -/
theorem C4_median_imputation :
    (∀ col : List (Option ℚ), col.filterMap id ≠ [] →
      ∃ m, medianQ (col.filterMap id) = some m ∧
        fillnaMedian col = col.map (fun v => some (v.getD m)) ∧
        ∀ v ∈ fillnaMedian col, v.isSome) ∧
    (∀ t : CasesTable,
      ("case_duration", fillnaMedian (case_duration t))
          ∈ clean_cases_numeric t ∧
      ∀ p ∈ t.numeric, (p.1, fillnaMedian p.2) ∈ clean_cases_numeric t) ∧
    fillnaMedian [some 1, some 2, none, some 3, some 4]
      = [some 1, some 2, some (5/2), some 3, some 4] := by
  refine ⟨?_, ?_, ?_⟩
  · intro col h
    obtain ⟨m, hm⟩ := medianQ_nonempty h
    refine ⟨m, hm, ?_, ?_⟩
    · unfold fillnaMedian
      rw [hm]
    · unfold fillnaMedian
      rw [hm]
      intro v hv
      simp only [List.mem_map] at hv
      obtain ⟨x, _, rfl⟩ := hv
      rfl
  · intro t
    constructor
    · unfold clean_cases_numeric
      rw [List.map_append]
      exact List.mem_append_right _ (by simp)
    · intro p hp
      unfold clean_cases_numeric
      rw [List.map_append]
      refine List.mem_append_left _ ?_
      exact List.mem_map.mpr ⟨p, hp, rfl⟩
  · have hfm : [some (1:ℚ), some 2, none, some 3, some 4].filterMap id
        = [(1:ℚ), 2, 3, 4] := rfl
    have hs : sortAsc [(1:ℚ), 2, 3, 4] = [(1:ℚ), 2, 3, 4] := by
      norm_num [sortAsc, insertAsc]
    have hmed : medianQ ([some (1:ℚ), some 2, none, some 3, some 4].filterMap id)
        = some (5/2) := by
      rw [hfm]
      unfold medianQ
      rw [dif_neg (by simp), hs]
      norm_num
    unfold fillnaMedian
    rw [hmed]
    rfl

/-- Witness for C4: the imputation characterization applied to the concrete
column `[some 1, none]` (median 1). -/
theorem C4_witness :
    ([some (1:ℚ), none].filterMap id ≠ []) ∧
    (∃ m, medianQ ([some (1:ℚ), none].filterMap id) = some m ∧
      fillnaMedian [some (1:ℚ), none]
        = [some (1:ℚ), none].map (fun v => some (v.getD m)) ∧
      ∀ v ∈ fillnaMedian [some (1:ℚ), none], v.isSome) :=
  ⟨by simp, C4_median_imputation.1 [some (1:ℚ), none] (by simp)⟩

/-! ## Schema normalizer (`Anomaly_Detection.py`, `normalize_columns`
lines 38–57)

`df.columns = df.columns.str.strip().str.lower()`, then
`df.rename(columns={k: v for k, v in column_map.items() if k in df.columns})`.
Only column names are modelled (`rename` touches nothing else). -/

/-- `.str.strip().str.lower()` on one column name. -/
def stripLower (s : String) : String :=
  ⟨(((s.data.dropWhile Char.isWhitespace).reverse.dropWhile
      Char.isWhitespace).reverse).map Char.toLower⟩

/-- The fixed alias→canonical `column_map` of `normalize_columns`. -/
def column_map : List (String × String) :=
  [("cnr", "cnr_number"), ("cnr_no", "cnr_number"), ("case_id", "cnr_number"),
   ("no_of_hearings", "total_hearings"), ("hearing_count", "total_hearings"),
   ("disposal_days", "disposal_days"), ("case_disposal_days", "disposal_days"),
   ("date_filed", "date_filed"), ("decision_date", "decision_date")]

def lookupAssoc (m : List (String × String)) (k : String) : Option String :=
  (m.find? (fun p => p.1 == k)).map (fun p => p.2)

/-- `df.rename(columns=d)` on the column names: every name is mapped through
the dict `d`, names absent from `d` unchanged. -/
def renameCols (d : List (String × String)) (cols : List String) :
    List String :=
  cols.map (fun c => (lookupAssoc d c).getD c)

/-- `normalize_columns`, on the column names: lower/strip everything, then
rename through `column_map` restricted to the keys present among the
(lowered) columns. -/
def normalize_columns (cols : List String) : List String :=
  renameCols
    (column_map.filter (fun p => (cols.map stripLower).contains p.1))
    (cols.map stripLower)

/-- The spec's description of the transform: per column, lower-case and
strip, then replace by its canonical name when the full alias table maps it,
else leave it untouched. -/
def spec_normalize_columns (cols : List String) : List String :=
  cols.map (fun c => (lookupAssoc column_map (stripLower c)).getD (stripLower c))

theorem find_filter_contains (m : List (String × String)) (l : List String)
    (c : String) (hc : c ∈ l) :
    (m.filter (fun p => l.contains p.1)).find? (fun p => p.1 == c)
      = m.find? (fun p => p.1 == c) := by
  induction m with
  | nil => rfl
  | cons p ps ih =>
    rw [List.filter_cons]
    by_cases hp : p.1 = c
    · have hcl : l.contains p.1 = true := by
        rw [hp]
        exact List.elem_eq_true_of_mem hc
      rw [if_pos hcl,
        List.find?_cons_of_pos _ (by simp [hp]),
        List.find?_cons_of_pos _ (by simp [hp])]
    · by_cases hkeep : l.contains p.1 = true
      · rw [if_pos hkeep,
          List.find?_cons_of_neg _ (by simp [hp]),
          List.find?_cons_of_neg _ (by simp [hp]), ih]
      · rw [if_neg hkeep, ih, List.find?_cons_of_neg _ (by simp [hp])]

/-- **C8 counterexample.** Two alias columns of the same canonical name:
`["cnr", "cnr_no"]` both rename to `cnr_number`, so the output has a
duplicated canonical name — the claimed uniqueness guarantee does not hold. -/
theorem C8_counterexample :
    normalize_columns ["cnr", "cnr_no"] = ["cnr_number", "cnr_number"] ∧
    ¬ (normalize_columns ["cnr", "cnr_no"]).Nodup := by
  refine ⟨by decide, ?_⟩
  intro h
  rw [show normalize_columns ["cnr", "cnr_no"]
      = ["cnr_number", "cnr_number"] from by decide] at h
  simp at h

/-- **C8 (amended).** The normalizer lower-cases and strips all column names,
renames via the fixed alias table exactly those (lowered) columns it maps,
and leaves unknown columns untouched — restricting the rename dict to the
keys present changes nothing; but it does **not** guarantee that a canonical
name appears at most once: distinct aliases of one canonical produce
duplicates. -/
theorem C8_normalize_columns_spec (cols : List String) :
    normalize_columns cols = spec_normalize_columns cols := by
  unfold normalize_columns spec_normalize_columns renameCols
  rw [List.map_map]
  refine List.map_congr_left ?_
  intro c hc
  have hmem : stripLower c ∈ cols.map stripLower :=
    List.mem_map_of_mem _ hc
  simp only [Function.comp]
  rw [show (lookupAssoc (column_map.filter
        (fun p => (cols.map stripLower).contains p.1)) (stripLower c))
      = lookupAssoc column_map (stripLower c) from by
    unfold lookupAssoc
    rw [find_filter_contains column_map (cols.map stripLower)
      (stripLower c) hmem]]

/-! ## Case/hearing merge (`Judge_Dashboard.py`, `load_all` lines 46–79)

After lower-casing/stripping both frames' column names, the code picks
`left_key = next((k for k in case_keys if k in cases.columns), None)` with
`case_keys = ["combined_case_number", "cnr_number", "case_number"]` (and
analogously `hearing_keys = ["combinedcasenumber", "cnr_number",
"case_number"]`), raises `ValueError("No common merge key found between
cases and hearings")` when either is `None`, and otherwise performs
`pd.merge(cases, hearings, left_on=left_key, right_on=right_key, how="left",
suffixes=("_case", "_hear"))`. Two pandas-specific points of the merge are
modelled exactly: the join factorizes key values with `NaN` treated as a
key equal to itself (null keys match null keys), and when
`left_on == right_on` pandas drops the right key column from the output
(only then are the remaining overlapping names suffixed). A table is a
column-name list plus rows of positionally aligned `Option String` cells
(`none` = null). -/

abbrev Row : Type := List (Option String)

structure Table where
  cols : List String
  rows : List Row

def case_keys : List String :=
  ["combined_case_number", "cnr_number", "case_number"]

def hearing_keys : List String :=
  ["combinedcasenumber", "cnr_number", "case_number"]

/-- `next((k for k in keys if k in df.columns), None)`. -/
def pickKey (keys cols : List String) : Option String :=
  keys.find? (fun k => cols.contains k)

/-- Cell of `row` under column name `c`, with `row` positionally aligned to
`cols`. -/
def colVal (cols : List String) (row : Row) (c : String) : Option String :=
  match cols.indexOf? c with
  | none => none
  | some i => row.getD i none

/-- pandas merge-key equality: the join factorizes the key columns with
`NaN` treated as a key value equal to itself, so two null key cells match
each other (and a null never matches a non-null). -/
def keyMatches (ccols hcols : List String) (lk rk : String)
    (cr hr : Row) : Bool :=
  colVal ccols cr lk == colVal hcols hr rk

/-- The hearing-frame cells that survive into a merged row: when
`left_on == right_on`, pandas drops the right key column from the output,
so the cell at that column's position is removed; with distinct key names
every hearing cell is kept. -/
def hearingCells (hearings : Table) (lk rk : String) (hr : Row) : Row :=
  if lk = rk then
    match hearings.cols.indexOf? rk with
    | some i => hr.eraseIdx i
    | none => hr
  else hr

/-- The hearing-frame column names that survive into the merge output:
pandas drops the right key column when `left_on == right_on`. -/
def rightOutCols (hcols : List String) (lk rk : String) : List String :=
  if lk = rk then hcols.erase rk else hcols

/-- Column names of the merged frame: the right key column is dropped when
the key names coincide, and names occurring on both remaining sides get the
`("_case", "_hear")` suffixes. -/
def mergedCols (ccols hcols : List String) (lk rk : String) : List String :=
  ccols.map (fun c =>
      if (rightOutCols hcols lk rk).contains c then c ++ "_case" else c)
    ++ (rightOutCols hcols lk rk).map
      (fun c => if ccols.contains c then c ++ "_hear" else c)

/-- The hearing-side padding of an unmatched case row: one null per
*surviving* hearing column (the right key column, when dropped, contributes
no cell). -/
def nullPad (hearings : Table) (lk rk : String) : Row :=
  hearingCells hearings lk rk (List.replicate hearings.cols.length none)

/-- Contribution of one case row to the left outer join: one merged row per
matching hearing row, or a single null-padded row when nothing matches. -/
def mergeGroup (hearings : Table) (lk rk : String) (ccols : List String)
    (cr : Row) : List Row :=
  if hearings.rows.filter
      (fun hr => keyMatches ccols hearings.cols lk rk cr hr) = []
  then [cr ++ nullPad hearings lk rk]
  else (hearings.rows.filter
      (fun hr => keyMatches ccols hearings.cols lk rk cr hr)).map
    (fun hr => cr ++ hearingCells hearings lk rk hr)

/-- Row set of the left outer join: each case row paired with each matching
hearing row; a case row with no match survives exactly once, null-padded on
the hearing side. -/
def leftMergeRows (hearings : Table) (lk rk : String) (ccols : List String)
    (crows : List Row) : List Row :=
  crows.flatMap (mergeGroup hearings lk rk ccols)

/-- The merge step of `load_all`: pick the first present key name on each
side; fail with the `ValueError` message when either side has none. -/
def load_all_merge (cases hearings : Table) : Except String Table :=
  match pickKey case_keys cases.cols, pickKey hearing_keys hearings.cols with
  | some lk, some rk =>
      Except.ok ⟨mergedCols cases.cols hearings.cols lk rk,
        leftMergeRows hearings lk rk cases.cols cases.rows⟩
  | _, _ => Except.error "No common merge key found between cases and hearings"

theorem hearingCells_length (hearings : Table) (lk rk : String) (hr : Row)
    (h : hr.length = hearings.cols.length) :
    (hearingCells hearings lk rk hr).length
      = (nullPad hearings lk rk).length := by
  unfold nullPad hearingCells
  by_cases hlr : lk = rk
  · rw [if_pos hlr, if_pos hlr]
    cases hidx : hearings.cols.indexOf? rk with
    | none => simp [h]
    | some i =>
      rw [List.length_eraseIdx, List.length_eraseIdx, h,
        List.length_replicate]
  · rw [if_neg hlr, if_neg hlr, h, List.length_replicate]

theorem count_mergeGroup_eq (hearings : Table) (lk rk : String)
    (ccols : List String) (cr r : Row)
    (hwf : ∀ hr ∈ hearings.rows, hr.length = hearings.cols.length)
    (hnomatch : hearings.rows.filter
      (fun hr => keyMatches ccols hearings.cols lk rk cr hr) = []) :
    (mergeGroup hearings lk rk ccols r).count (cr ++ nullPad hearings lk rk)
      = if r = cr then 1 else 0 := by
  by_cases hfil : hearings.rows.filter
      (fun hr => keyMatches ccols hearings.cols lk rk r hr) = []
  · unfold mergeGroup
    rw [if_pos hfil]
    by_cases hrc : r = cr
    · subst hrc
      rw [if_pos rfl]
      simp
    · rw [if_neg hrc, List.count_eq_zero]
      simp only [List.mem_singleton]
      intro h
      exact hrc (List.append_cancel_right h.symm)
  · unfold mergeGroup
    rw [if_neg hfil]
    have hrc : r ≠ cr := by
      intro h'
      rw [h'] at hfil
      exact hfil hnomatch
    rw [if_neg hrc, List.count_eq_zero]
    intro hmem
    obtain ⟨hr, hhr, heq⟩ := List.mem_map.mp hmem
    have hhr' : hr ∈ hearings.rows := List.mem_of_mem_filter hhr
    have hlen : (hearingCells hearings lk rk hr).length
        = (nullPad hearings lk rk).length :=
      hearingCells_length hearings lk rk hr (hwf hr hhr')
    obtain ⟨hrc', _⟩ := List.append_inj' heq hlen
    exact hrc hrc'

theorem count_leftMergeRows (hearings : Table) (lk rk : String)
    (ccols : List String) (cr : Row) (crows : List Row)
    (hwf : ∀ hr ∈ hearings.rows, hr.length = hearings.cols.length)
    (hnomatch : hearings.rows.filter
      (fun hr => keyMatches ccols hearings.cols lk rk cr hr) = []) :
    (leftMergeRows hearings lk rk ccols crows).count
        (cr ++ nullPad hearings lk rk)
      = crows.count cr := by
  induction crows with
  | nil => rfl
  | cons r rs ih =>
    have hstep : leftMergeRows hearings lk rk ccols (r :: rs)
        = mergeGroup hearings lk rk ccols r
          ++ leftMergeRows hearings lk rk ccols rs := by
      unfold leftMergeRows
      rw [List.flatMap_cons]
    rw [hstep, List.count_append, ih, List.count_cons,
      count_mergeGroup_eq hearings lk rk ccols cr r hwf hnomatch]
    by_cases hrc : r = cr
    · subst hrc
      simp [Nat.add_comm]
    · have : (r == cr) = false := by
        simp only [beq_eq_false_iff_ne, ne_eq]
        exact hrc
      rw [if_neg hrc, this]
      simp

/-- **C3.** The case/hearing merge is a left outer join on the first matching
key-name pair (case side tried in order `combined_case_number, cnr_number,
case_number`, hearing side `combinedcasenumber, cnr_number, case_number`,
as fixed in `case_keys` / `hearing_keys` / `pickKey`): a case row occurring
once with zero matching hearings (pandas matching: null keys match null
keys) appears exactly once in the merged table, null-filled on all
hearing-side output columns (the right key column is dropped when both key
names coincide); and when no candidate key is present on either side the
merge stops with the "No common merge key found between cases and hearings"
error instead of proceeding. -/
theorem C3_left_outer_join :
    (∀ (cases hearings : Table) (lk rk : String),
      pickKey case_keys cases.cols = some lk →
      pickKey hearing_keys hearings.cols = some rk →
      (∀ hr ∈ hearings.rows, hr.length = hearings.cols.length) →
      ∀ cr : Row, cases.rows.count cr = 1 →
        hearings.rows.filter
          (fun hr => keyMatches cases.cols hearings.cols lk rk cr hr) = [] →
        ∃ merged : Table, load_all_merge cases hearings = Except.ok merged ∧
          merged.rows.count (cr ++ nullPad hearings lk rk) = 1) ∧
    (∀ cases hearings : Table,
      pickKey case_keys cases.cols = none ∨
        pickKey hearing_keys hearings.cols = none →
      load_all_merge cases hearings
        = Except.error "No common merge key found between cases and hearings")
    := by
  constructor
  · intro cases hearings lk rk h1 h2 hwf cr hcount hnomatch
    refine ⟨⟨mergedCols cases.cols hearings.cols lk rk,
      leftMergeRows hearings lk rk cases.cols cases.rows⟩, ?_, ?_⟩
    · unfold load_all_merge
      rw [h1, h2]
    · rw [count_leftMergeRows hearings lk rk cases.cols cr cases.rows hwf
        hnomatch, hcount]
  · intro cases hearings h
    rcases h with h | h
    · unfold load_all_merge
      rw [h]
    · cases h1 : pickKey case_keys cases.cols with
      | none => unfold load_all_merge; rw [h1]
      | some lk => unfold load_all_merge; rw [h1, h]

/-- Witness for C3: a one-row cases table keyed `cnr_number` merged against a
one-row hearings table whose (non-null) key does not match (so the dropped
right key column and the null padding are exercised), and a pair of tables
with no candidate key at all (the error branch). -/
theorem C3_witness :
    (∃ merged : Table,
      load_all_merge ⟨["cnr_number"], [[some "C1"]]⟩
          ⟨["cnr_number", "purposeofhearing"], [[some "C2", some "ARGUMENTS"]]⟩
        = Except.ok merged ∧
      merged.rows.count
          ([some "C1"]
            ++ nullPad ⟨["cnr_number", "purposeofhearing"],
              [[some "C2", some "ARGUMENTS"]]⟩ "cnr_number" "cnr_number")
        = 1) ∧
    load_all_merge ⟨["state"], []⟩ ⟨["bench"], []⟩
      = Except.error "No common merge key found between cases and hearings" :=
  ⟨C3_left_outer_join.1
      ⟨["cnr_number"], [[some "C1"]]⟩
      ⟨["cnr_number", "purposeofhearing"], [[some "C2", some "ARGUMENTS"]]⟩
      "cnr_number" "cnr_number" rfl rfl
      (by intro hr hhr; simp only [List.mem_singleton] at hhr; subst hhr; rfl)
      [some "C1"] (by decide) (by decide),
   C3_left_outer_join.2 ⟨["state"], []⟩ ⟨["bench"], []⟩ (Or.inl rfl)⟩

end NJDG
